import Mathlib

/-!
Shallow embedding of `tools/prepare_sfm.py` (taichi_3d_gaussian_splatting).

Numeric values are modelled as rationals: every numeric literal appearing in
the program and in the examples is exactly representable in IEEE binary64, so
`float(x)` coercion of an already-numeric value is the identity here.  The one
place where binary64 rounding is observable — the split index
`int(len(list_images) * 0.8)` — is modelled exactly: `float08` is the exact
rational value of the double literal `0.8` and `roundDouble` performs IEEE
round-to-nearest, ties-to-even.

Pandas data frames are modelled as a list of column names plus a list of
rows of optional rationals (`none` models a NaN cell produced by padding).
`json.load` is not modelled: inputs enter already structured (`SfmInput`);
likewise the embedded pose text of a pose record enters as the *result* of
`json.loads(str(original["pose"]).replace("'", "\""))`, i.e. an
`Option Transform` that is `none` exactly when that normalisation/parsing
step (or the `["transform"]` key lookups) would fail.
-/

namespace PrepareSfm

/-- Python exception kinds that the script can raise. -/
inductive PyErr where
  | keyError (key : String)
  | valueError
  | indexError
  | typeError
  deriving DecidableEq

/-- One element of the `structure` list of `sfm.json`: carries the field `X`. -/
structure StructElem where
  X : List ℚ
  deriving DecidableEq

/-- One element of the `views` list of `sfm.json` (fields the script reads). -/
structure ViewRecord where
  poseId : String
  path : String
  height : ℚ
  width : ℚ
  deriving DecidableEq

/-- The parsed `transform` part of a pose's embedded `pose` value. -/
structure Transform where
  rotation : List ℚ
  center : List ℚ
  deriving DecidableEq

/-- One element of the `poses` list of `sfm.json`.  The `pose` field holds the
result of `json.loads(str(original["pose"]).replace("'", "\""))` followed by
the `["transform"]` lookups: `none` models a normalisation/parsing/key
failure of that embedded text. -/
structure PoseRecord where
  poseId : String
  pose : Option Transform
  deriving DecidableEq

/-- One element of the `intrinsics` list of `sfm.json`. -/
structure IntrinsicRecord where
  principalPoint : List (List ℚ)
  focalLength : List ℚ
  deriving DecidableEq

/-- A parsed `sfm.json` document (the four top-level keys the script reads). -/
structure SfmInput where
  «structure» : List StructElem
  views : List ViewRecord
  poses : List PoseRecord
  intrinsics : List IntrinsicRecord

/-- A pandas data frame: column names plus rows of cells; a `none` cell is a
NaN introduced by padding a short row. -/
structure Df where
  cols : List String
  rows : List (List (Option ℚ))
  deriving DecidableEq

/-- Width of the object array pandas builds from a list of row lists: the
maximum row length (0 when there are no rows). -/
def toObjectArrayWidth (rows : List (List (Option ℚ))) : ℕ :=
  (rows.map List.length).foldr max 0

/-- Pad a row on the right with NaN cells up to width `w`
(pandas `lib.to_object_array`). -/
def padRow (w : ℕ) (r : List (Option ℚ)) : List (Option ℚ) :=
  r ++ List.replicate (w - r.length) none

/-- Model of `pd.DataFrame(rows, columns=cols)` on a list of row lists:
an empty data list yields an empty frame with the given columns; otherwise
the object-array width must equal the number of column names
(`ValueError: n columns passed, passed data had m columns`), and rows
shorter than the width are padded with NaN. -/
def pdDataFrameFromRows (rows : List (List (Option ℚ))) (cols : List String) :
    Except PyErr Df :=
  if rows.isEmpty then .ok ⟨cols, []⟩
  else
    let w := toObjectArrayWidth rows
    if w = cols.length then .ok ⟨cols, rows.map (padRow w)⟩
    else .error .valueError

/-- Model of `.astype(float)`: cells are already rationals and NaN cells stay
NaN, so the cast is the identity. -/
def astypeFloat (df : Df) : Df := df

/-- Model of `df[name]` column selection: `KeyError` when the name is not a
column, otherwise the list of cells of that column. -/
def dfColumn (df : Df) (name : String) : Except PyErr (List (Option ℚ)) :=
  if df.cols.contains name then
    .ok (df.rows.map (fun r => r.getD (df.cols.indexOf name) none))
  else .error (.keyError name)

/-- The view table `pd.DataFrame(data['views']).set_index('poseId')`:
one keyed row per element of `views`, duplicates retained
(`set_index` does not deduplicate). -/
def mkViewTable (views : List ViewRecord) : List (String × ViewRecord) :=
  views.map (fun v => (v.poseId, v))

/-- Model of `images.loc[id]`: all rows whose index equals `id`
(pandas label selection returns every matching row). -/
def viewLoc (tbl : List (String × ViewRecord)) (id : String) : List ViewRecord :=
  (tbl.filter (fun p => p.1 == id)).map (fun p => p.2)

/-- Model of `extrapolate_json` (prepare_sfm.py lines 27-35): build the
structure frame from the `X` fields with columns `x`, `y`, `z` (line 31),
then the view table indexed by `poseId` (line 32).  On an empty `views` list
`pd.DataFrame([])` has no columns at all, so `set_index('poseId')` raises
`KeyError("poseId")`; with at least one view every record carries a `poseId`
column and `set_index` succeeds, retaining duplicate labels.  `poses` and
`intrinsics` pass through as raw row lists. -/
def extrapolate_json (d : SfmInput) :
    Except PyErr (Df × List (String × ViewRecord) × List PoseRecord × List IntrinsicRecord) := do
  let st ← pdDataFrameFromRows (d.«structure».map (fun s => s.X.map some)) ["x", "y", "z"]
  if d.views.isEmpty then .error (.keyError "poseId")
  else .ok (astypeFloat st, mkViewTable d.views, d.poses, d.intrinsics)

/-- Model of the record-level contract of `prepare_intrinsic`
(prepare_sfm.py lines 37-60, spec section 4.2), applied to the first
intrinsic record (index 0, `KeyError` when there is none):
`principalPoint[0][0]`, `principalPoint[0][1]` and `focalLength[0]` index
into the record's lists (`IndexError` when too short); skew `s` is the
constant 0.  The call at line 113 actually passes the intrinsics *frame*,
where `intrinsic["principalPoint"][0][0]` selects the whole first-row
`principalPoint` list and `float` of it would raise `TypeError`; that call
is unreachable (the run dies at line 101), and the claims state the
record-level contract, which this definition follows. -/
def prepare_intrinsic (intrinsics : List IntrinsicRecord) :
    Except PyErr (List (List ℚ)) :=
  match intrinsics with
  | [] => .error (.keyError "principalPoint")
  | i :: _ =>
    match i.principalPoint with
    | [] => .error .indexError
    | pp0 :: _ =>
      match pp0, i.focalLength with
      | cx :: cy :: _, f :: _ =>
        let s : ℚ := 0
        .ok [[f, s, cx],
             [0, f, cy],
             [0, 0, 1]]
      | _, _ => .error .indexError

/-- Model of `prepare_rototranslation` (prepare_sfm.py lines 62-93): when the
embedded pose text parsed (`pose = some data`), index the rotation list at
0..8 and the center list at 0..2 (`IndexError` when either is too short) and
lay them out as a homogeneous 4×4 matrix with bottom row `[0,0,0,1]`. -/
def prepare_rototranslation (original : PoseRecord) :
    Except PyErr (List (List ℚ)) :=
  match original.pose with
  | none => .error .valueError
  | some data =>
    let rotation := data.rotation
    let transform := data.center
    if h : 9 ≤ rotation.length ∧ 3 ≤ transform.length then
      .ok [
        [rotation.get ⟨0, by omega⟩, rotation.get ⟨1, by omega⟩,
         rotation.get ⟨2, by omega⟩, transform.get ⟨0, by omega⟩],
        [rotation.get ⟨3, by omega⟩, rotation.get ⟨4, by omega⟩,
         rotation.get ⟨5, by omega⟩, transform.get ⟨1, by omega⟩],
        [rotation.get ⟨6, by omega⟩, rotation.get ⟨7, by omega⟩,
         rotation.get ⟨8, by omega⟩, transform.get ⟨2, by omega⟩],
        [0, 0, 0, 1]]
    else .error .indexError

/-- One assembled output image record (prepare_sfm.py lines 108-116). -/
structure OutputRecord where
  image_path : String
  T_pointcloud_camera : List (List ℚ)
  camera_intrinsics : List (List ℚ)
  camera_height : ℚ
  camera_width : ℚ
  camera_id : ℕ
  deriving DecidableEq

/-- One iteration of the assembly loop (prepare_sfm.py lines 107-118):
look the pose's `poseId` up in the view table (`KeyError` when absent; when
the id is duplicated, `loc` returns several rows and the later
`float(images.loc[id]["height"])` raises `TypeError` on the multi-row
selection), then build the output record. -/
def assembleOne (images : List (String × ViewRecord))
    (intrinsic : List IntrinsicRecord) (p : PoseRecord) :
    Except PyErr OutputRecord :=
  match viewLoc images p.poseId with
  | [] => .error (.keyError p.poseId)
  | [v] => do
    let t ← prepare_rototranslation p
    let k ← prepare_intrinsic intrinsic
    .ok { image_path := v.path
          T_pointcloud_camera := t
          camera_intrinsics := k
          camera_height := v.height
          camera_width := v.width
          camera_id := 0 }
  | _ :: _ :: _ => .error .typeError

/-- The assembly loop over all poses in source order, stopping at the first
error (an uncaught exception aborts the `for` loop). -/
def assembleImages (images : List (String × ViewRecord))
    (intrinsic : List IntrinsicRecord) : List PoseRecord →
    Except PyErr (List OutputRecord)
  | [] => .ok []
  | p :: ps => do
    let r ← assembleOne images intrinsic p
    let rest ← assembleImages images intrinsic ps
    .ok (r :: rest)

/-- Exact rational value of the IEEE binary64 double nearest to the literal
`0.8`, namely `3602879701896397 * 2 ^ (-52)` = 4/5 + 1/(5 * 2^52). -/
def float08 : ℚ := 3602879701896397 / 2 ^ 52

/-- Round a rational to an integer, ties to even (the IEEE default rounding
of a value expressed in units of the result's grid). -/
def roundTiesEven (x : ℚ) : ℤ :=
  if Int.fract x = 1 / 2 then 2 * round (x / 2) else round x

/-- Binary exponent of a positive rational: the `e` with `2^e ≤ q < 2^(e+1)`.
Valid for `q ≥ 1/2`; every positive value rounded in this development lies in
`[1/2, 2^53)`, so subnormals and values below `1/2` never occur. -/
def dexp (q : ℚ) : ℤ :=
  if q < 1 then -1 else (Nat.log2 ⌊q⌋.toNat : ℤ)

/-- Round a nonnegative rational to the nearest IEEE binary64 value
(53-bit significand, ties to even): scale by the unit in the last place
`2^(dexp q - 52)`, round to an integer ties-to-even, and scale back. -/
def roundDouble (q : ℚ) : ℚ :=
  if q ≤ 0 then 0
  else (2 : ℚ) ^ (dexp q - 52) * roundTiesEven ((2 : ℚ) ^ (52 - dexp q) * q)

/-- Conversion of a Python `int` to a double (exact below `2^53`). -/
def floatOfNat (n : ℕ) : ℚ := roundDouble n

/-- The double produced by the Python expression `n * 0.8`. -/
def pyMul08 (n : ℕ) : ℚ := roundDouble (floatOfNat n * float08)

/-- Model of `split = int(len(list_images) * 0.8)` (prepare_sfm.py line 123):
`int()` truncates toward zero, which is the floor on nonnegative values. -/
def pySplit (n : ℕ) : ℕ := (⌊pyMul08 n⌋).toNat

/-- Model of the splitter (prepare_sfm.py lines 123-126):
`train = list_images[:split]`, `val = list_images[split:]` applied to the
(already shuffled) list. -/
def trainValSplit {α : Type} (l : List α) : List α × List α :=
  (l.take (pySplit l.length), l.drop (pySplit l.length))

/-- A file written by the script: the parquet point cloud or one of the two
JSON manifests. -/
inductive WriteEvent where
  | parquet (df : Df)
  | jsonOut (path : String) (records : List OutputRecord)
  deriving DecidableEq

/-- Model of `convert_sfm_to_parquet` (prepare_sfm.py lines 95-132), returning
the files written before termination, and the uncaught exception if one was
raised.  `shuffle` stands for the effect of `random.shuffle(list_images)`
(an arbitrary permutation, quantified in the theorems).  Line 101 selects
column `"X"` of the structure frame and rebuilds a frame from its cell list
(each scalar cell is one row of width 1) before writing the parquet file. -/
def convert_sfm_to_parquet (shuffle : List OutputRecord → List OutputRecord)
    (input : SfmInput) : List WriteEvent × Option PyErr :=
  match extrapolate_json input with
  | .error e => ([], some e)
  | .ok (pd_structure, images, poses, intrinsic) =>
    match dfColumn pd_structure "X" with
    | .error e => ([], some e)
    | .ok xcol =>
      match pdDataFrameFromRows (xcol.map (fun c => [c])) ["x", "y", "z"] with
      | .error e => ([], some e)
      | .ok point_cloud_df =>
        let w1 := WriteEvent.parquet (astypeFloat point_cloud_df)
        match assembleImages images intrinsic poses with
        | .error e => ([w1], some e)
        | .ok list_images =>
          let shuffled := shuffle list_images
          let train := (trainValSplit shuffled).1
          let val := (trainValSplit shuffled).2
          ([w1, .jsonOut "train.json" train, .jsonOut "val.json" val], none)

/-! ### Concrete inputs used in closed instances -/

/-- Placeholder assembled record used to instantiate split statements on
concrete lists. -/
def dummyRecord : OutputRecord :=
  { image_path := ""
    T_pointcloud_camera := []
    camera_intrinsics := []
    camera_height := 0
    camera_width := 0
    camera_id := 0 }

/-- Records with distinct image paths, used to instantiate the split
partition property. -/
def recA : OutputRecord :=
  { image_path := "a"
    T_pointcloud_camera := []
    camera_intrinsics := []
    camera_height := 0
    camera_width := 0
    camera_id := 0 }

/-- Second distinct record for the split partition instance. -/
def recB : OutputRecord :=
  { image_path := "b"
    T_pointcloud_camera := []
    camera_intrinsics := []
    camera_height := 0
    camera_width := 0
    camera_id := 0 }

/-- A concrete view record with pose identifier "p". -/
def viewA : ViewRecord :=
  { poseId := "p", path := "a.png", height := 100, width := 200 }

/-- A second concrete view record carrying the same pose identifier "p". -/
def viewB : ViewRecord :=
  { poseId := "p", path := "b.png", height := 10, width := 20 }

/-- A concrete pose record (identity rotation, translation (1,2,3)) with
pose identifier "p". -/
def poseA : PoseRecord :=
  { poseId := "p"
    pose := some { rotation := [1, 0, 0, 0, 1, 0, 0, 0, 1], center := [1, 2, 3] } }

/-- A concrete intrinsic record matching the spec's worked example. -/
def intrA : IntrinsicRecord :=
  { principalPoint := [[100, 50]], focalLength := [800] }

/-- A fully valid concrete `sfm.json` document: one structure point, one
view, one matching pose, one intrinsic record. -/
def c1Input : SfmInput :=
  { «structure» := [{ X := [1, 2, 3] }]
    views := [viewA]
    poses := [poseA]
    intrinsics := [intrA] }

/-- A document whose first structure element has an `X` of length 2 and whose
second has length 3, with one view so that `set_index('poseId')` succeeds. -/
def d10Input : SfmInput :=
  { «structure» := [{ X := [1, 2] }, { X := [1, 2, 3] }]
    views := [viewA]
    poses := []
    intrinsics := [] }

/-- A document with no structure points but one view: the loader succeeds
(empty structure frame, nonempty views) and conversion then dies at the
column lookup of line 101. -/
def viewsOnlyInput : SfmInput :=
  { «structure» := [], views := [viewA], poses := [], intrinsics := [] }

/-! ### Facts about the binary64 rounding model -/

lemma roundTiesEven_intCast (z : ℤ) : roundTiesEven (z : ℚ) = z := by
  rw [roundTiesEven, if_neg, round_intCast]
  rw [Int.fract_intCast]
  norm_num

lemma abs_roundTiesEven_sub (x : ℚ) : |(roundTiesEven x : ℚ) - x| ≤ 1 / 2 := by
  by_cases h : Int.fract x = 1 / 2
  · have hx : x = (⌊x⌋ : ℚ) + 1 / 2 := by
      rw [← h, Int.fract]; ring
    rw [roundTiesEven, if_pos h]
    rcases Int.even_or_odd ⌊x⌋ with ⟨k, hk⟩ | ⟨k, hk⟩
    · have hx2 : x / 2 = (k : ℚ) + 1 / 4 := by
        rw [hx, hk]; push_cast; ring
      have hr : round (x / 2) = k := by
        rw [hx2, round_int_add, add_right_eq_self, round_eq]
        rw [Int.floor_eq_zero_iff]
        constructor <;> norm_num
      rw [hr, hx, hk]
      push_cast
      rw [abs_le]
      constructor <;> nlinarith [Int.fract_nonneg x]
    · have hx2 : x / 2 = (k : ℚ) + 3 / 4 := by
        rw [hx, hk]; push_cast; ring
      have hr34 : round ((3 : ℚ) / 4) = 1 := by
        rw [round_eq]
        rw [Int.floor_eq_iff]
        constructor <;> norm_num
      have hr : round (x / 2) = k + 1 := by
        rw [hx2, round_int_add, hr34]
      rw [hr, hx, hk]
      push_cast
      rw [abs_le]
      constructor <;> nlinarith [Int.fract_nonneg x]
  · rw [roundTiesEven, if_neg h, abs_sub_comm]
    exact abs_sub_round x

lemma roundTiesEven_of_fract_lt_half {x : ℚ} (h : Int.fract x < 1 / 2) :
    roundTiesEven x = ⌊x⌋ := by
  rw [roundTiesEven, if_neg (by exact h.ne), round_eq]
  have hx : x + 1 / 2 = (⌊x⌋ : ℚ) + (Int.fract x + 1 / 2) := by
    rw [Int.fract]; ring
  rw [hx, Int.floor_int_add, add_right_eq_self, Int.floor_eq_zero_iff]
  simp only [Set.mem_Ico]
  constructor
  · linarith [Int.fract_nonneg x]
  · linarith

lemma dexp_spec {q : ℚ} (h : 1 / 2 ≤ q) :
    (2 : ℚ) ^ dexp q ≤ q ∧ q < 2 ^ (dexp q + 1) := by
  rw [dexp]
  split
  · rename_i hlt
    constructor
    · rw [zpow_neg_one]
      rw [show ((2 : ℚ)⁻¹ = 1 / 2) by norm_num]
      exact h
    · norm_num
      exact hlt
  · rename_i hge
    have h1 : (1 : ℚ) ≤ q := by linarith [not_lt.mp hge]
    have hfl1 : 1 ≤ ⌊q⌋ := by
      rw [Int.le_floor]; exact_mod_cast h1
    have hmne : ⌊q⌋.toNat ≠ 0 := by omega
    have hcast : ((⌊q⌋.toNat : ℤ) : ℚ) = (⌊q⌋ : ℚ) := by
      rw [Int.toNat_of_nonneg (by omega)]
    constructor
    · have hle := Nat.log2_self_le hmne
      calc (2 : ℚ) ^ ((Nat.log2 ⌊q⌋.toNat : ℕ) : ℤ)
          = ((2 ^ Nat.log2 ⌊q⌋.toNat : ℕ) : ℚ) := by
            rw [zpow_natCast]; push_cast; ring
        _ ≤ ((⌊q⌋.toNat : ℕ) : ℚ) := by exact_mod_cast hle
        _ = (⌊q⌋ : ℚ) := by exact_mod_cast hcast
        _ ≤ q := Int.floor_le q
    · have hlt := Nat.lt_log2_self (n := ⌊q⌋.toNat)
      have hlt' : (⌊q⌋.toNat : ℕ) + 1 ≤ 2 ^ (Nat.log2 ⌊q⌋.toNat + 1) := hlt
      calc q < (⌊q⌋ : ℚ) + 1 := Int.lt_floor_add_one q
        _ = ((⌊q⌋.toNat : ℕ) : ℚ) + 1 := by rw [← hcast]; norm_cast
        _ ≤ ((2 ^ (Nat.log2 ⌊q⌋.toNat + 1) : ℕ) : ℚ) := by exact_mod_cast hlt'
        _ = 2 ^ (((Nat.log2 ⌊q⌋.toNat : ℕ) : ℤ) + 1) := by
            rw [show ((Nat.log2 ⌊q⌋.toNat : ℕ) : ℤ) + 1 = ((Nat.log2 ⌊q⌋.toNat + 1 : ℕ) : ℤ) by push_cast; ring]
            rw [zpow_natCast]; push_cast; ring

lemma roundDouble_eq_of_pos {q : ℚ} (h : 0 < q) :
    roundDouble q =
      (2 : ℚ) ^ (dexp q - 52) * roundTiesEven ((2 : ℚ) ^ (52 - dexp q) * q) := by
  rw [roundDouble, if_neg (by linarith)]

lemma abs_roundDouble_sub {q : ℚ} (h : 1 / 2 ≤ q) :
    |roundDouble q - q| ≤ 2 ^ (dexp q - 53) := by
  rw [roundDouble_eq_of_pos (by linarith)]
  set e := dexp q with he
  have hqx : (2 : ℚ) ^ (e - 52) * ((2 : ℚ) ^ (52 - e) * q) = q := by
    rw [← mul_assoc, ← zpow_add₀ (two_ne_zero)]
    norm_num
  set x := (2 : ℚ) ^ (52 - e) * q with hx
  have hupos : (0 : ℚ) < 2 ^ (e - 52) := zpow_pos (by norm_num) _
  calc |2 ^ (e - 52) * (roundTiesEven x : ℚ) - q|
      = |2 ^ (e - 52) * ((roundTiesEven x : ℚ) - x)| := by rw [mul_sub, hqx]
    _ = 2 ^ (e - 52) * |(roundTiesEven x : ℚ) - x| := by
        rw [abs_mul, abs_of_pos hupos]
    _ ≤ 2 ^ (e - 52) * (1 / 2) := by
        exact mul_le_mul_of_nonneg_left (abs_roundTiesEven_sub x) (le_of_lt hupos)
    _ = 2 ^ (e - 53) := by
        rw [show (1 : ℚ) / 2 = 2 ^ (-1 : ℤ) by norm_num]
        rw [← zpow_add₀ (two_ne_zero : (2 : ℚ) ≠ 0)]
        congr 1
        omega

lemma dexp_le_of_lt {q : ℚ} (c : ℤ) (h : 1 / 2 ≤ q) (hlt : q < 2 ^ (c + 1)) :
    dexp q ≤ c := by
  by_contra hc
  push_neg at hc
  have h1 : (2 : ℚ) ^ (c + 1) ≤ 2 ^ dexp q :=
    zpow_le_zpow_right₀ (by norm_num) (by omega)
  have h2 := (dexp_spec h).1
  linarith

lemma roundDouble_natCast (n : ℕ) (h1 : 1 ≤ n) (h2 : n < 2 ^ 53) :
    roundDouble (n : ℚ) = n := by
  have hq : (1 : ℚ) / 2 ≤ (n : ℚ) := by
    have : (1 : ℚ) ≤ n := by exact_mod_cast h1
    linarith
  have hlt : (n : ℚ) < 2 ^ ((52 : ℤ) + 1) := by
    have : (n : ℚ) < ((2 ^ 53 : ℕ) : ℚ) := by exact_mod_cast h2
    calc (n : ℚ) < ((2 ^ 53 : ℕ) : ℚ) := this
      _ = 2 ^ ((52 : ℤ) + 1) := by norm_num
  have he52 : dexp (n : ℚ) ≤ 52 := dexp_le_of_lt 52 hq hlt
  rw [roundDouble_eq_of_pos (by positivity)]
  set e := dexp (n : ℚ) with he
  set k : ℕ := (52 - e).toNat with hk
  have hkz : ((k : ℕ) : ℤ) = 52 - e := Int.toNat_of_nonneg (by omega)
  have hxn : (2 : ℚ) ^ (52 - e) * (n : ℚ) = (((2 ^ k * n : ℕ) : ℤ) : ℚ) := by
    rw [← hkz, zpow_natCast]
    push_cast
    ring
  rw [hxn, roundTiesEven_intCast]
  rw [show ((((2 ^ k * n : ℕ) : ℤ)) : ℚ) = 2 ^ (52 - e) * (n : ℚ) by rw [hxn]]
  rw [← mul_assoc, ← zpow_add₀ (two_ne_zero)]
  norm_num

lemma float08_eq : float08 = 4 / 5 + 1 / (5 * 2 ^ 52) := by
  rw [float08]; norm_num

set_option maxHeartbeats 1000000 in
/-- Heart of the split-index analysis: below `3 * 2 ^ 49` the double product
`n * 0.8` floors to the exact `⌊4n/5⌋`. -/
lemma pyMul08_floor (n : ℕ) (h1 : 1 ≤ n) (h2 : n < 3 * 2 ^ 49) :
    ⌊pyMul08 n⌋ = ((4 * n / 5 : ℕ) : ℤ) := by
  have hn53 : n < 2 ^ 53 := lt_of_lt_of_le h2 (by norm_num)
  have hfn : floatOfNat n = n := roundDouble_natCast n h1 hn53
  rw [pyMul08, hfn]
  set q : ℚ := (n : ℚ) * float08 with hqdef
  set m : ℤ := ((4 * n / 5 : ℕ) : ℤ) with hmdef
  set r : ℤ := ((4 * n % 5 : ℕ) : ℤ) with hrdef
  have hkey : 5 * (4 * n / 5 : ℕ) + (4 * n % 5 : ℕ) = 4 * n := Nat.div_add_mod _ _
  have h45 : 4 * (n : ℤ) = 5 * m + r := by rw [hmdef, hrdef]; push_cast; omega
  have hr05 : 0 ≤ r ∧ r < 5 := by
    rw [hrdef]
    constructor
    · positivity
    · exact_mod_cast Nat.mod_lt _ (by norm_num)
  have h45q : 4 * (n : ℚ) = 5 * (m : ℚ) + (r : ℚ) := by exact_mod_cast h45
  set err : ℚ := (n : ℚ) / (5 * 2 ^ 52) with herrdef
  have hq : q = (m : ℚ) + (r : ℚ) / 5 + err := by
    rw [hqdef, float08_eq, herrdef]
    field_simp
    linarith [h45q]
  have hn1 : (1 : ℚ) ≤ (n : ℚ) := by exact_mod_cast h1
  have herr_pos : 0 < err := by rw [herrdef]; positivity
  have herr3 : err < 3 / 40 := by
    rw [herrdef, div_lt_iff₀ (by positivity)]
    have : (n : ℚ) < ((3 * 2 ^ 49 : ℕ) : ℚ) := by exact_mod_cast h2
    calc (n : ℚ) < ((3 * 2 ^ 49 : ℕ) : ℚ) := this
      _ = 3 / 40 * (5 * 2 ^ 52) := by norm_num
  have hf08lt : float08 < 1 := by rw [float08]; norm_num
  have hqn : q < (n : ℚ) := by
    rw [hqdef]
    nlinarith
  have hm0 : 0 ≤ m := by rw [hmdef]; positivity
  have hr0q : 0 ≤ (r : ℚ) := by exact_mod_cast hr05.1
  have hr5q : (r : ℚ) < 5 := by exact_mod_cast hr05.2
  have hqhalf : 1 / 2 ≤ q := by
    have hm0q : (0 : ℚ) ≤ (m : ℚ) := by exact_mod_cast hm0
    nlinarith [hq, h45q]
  have hqlt : q < 2 ^ ((50 : ℤ) + 1) := by
    have : ((3 * 2 ^ 49 : ℕ) : ℚ) ≤ 2 ^ ((50 : ℤ) + 1) := by norm_num
    have hn' : (n : ℚ) < ((3 * 2 ^ 49 : ℕ) : ℚ) := by exact_mod_cast h2
    linarith
  have he50 : dexp q ≤ 50 := dexp_le_of_lt 50 hqhalf hqlt
  obtain ⟨hspec1, hspec2⟩ := dexp_spec hqhalf
  set e := dexp q with hedef
  have hu : (2 : ℚ) ^ (e - 53) ≤ 1 / 8 := by
    calc (2 : ℚ) ^ (e - 53) ≤ 2 ^ (-3 : ℤ) :=
          zpow_le_zpow_right₀ (by norm_num) (by omega)
      _ = 1 / 8 := by norm_num
  have habs := abs_roundDouble_sub hqhalf
  rw [← hedef] at habs
  rw [abs_le] at habs
  by_cases hrz : r = 0
  · -- exact-multiple case: the product rounds back to the integer m itself
    have hqm : q = (m : ℚ) + err := by rw [hq, hrz]; push_cast; ring
    have h2e : 2 * (n : ℚ) < 5 * 2 ^ e := by
      have hq45 : 4 * (n : ℚ) / 5 ≤ q := by
        rw [hqm]
        have : 4 * (n : ℚ) = 5 * (m : ℚ) := by rw [h45q, hrz]; push_cast; ring
        nlinarith
      have h2e' : q < 2 ^ e * 2 := by
        rw [show (2 : ℚ) ^ e * 2 = 2 ^ (e + 1) by
          rw [zpow_add₀ (two_ne_zero : (2 : ℚ) ≠ 0)]; norm_num]
        exact hspec2
      nlinarith
    have herr_ulp : err < 2 ^ (e - 53) := by
      have hz : (2 : ℚ) ^ (e - 53) = 2 ^ e / 2 ^ (53 : ℤ) :=
        zpow_sub₀ (two_ne_zero : (2 : ℚ) ≠ 0) _ _
      have h53 : (2 : ℚ) ^ (53 : ℤ) = ((2 : ℚ) ^ (53 : ℕ)) := by norm_num
      rw [herrdef, hz, h53, div_lt_div_iff₀ (by positivity) (by positivity)]
      have h252 : (0 : ℚ) < (2 : ℚ) ^ (52 : ℕ) := by positivity
      have hmul := mul_lt_mul_of_pos_right h2e h252
      calc (n : ℚ) * 2 ^ (53 : ℕ) = 2 * (n : ℚ) * 2 ^ (52 : ℕ) := by ring
        _ < 5 * 2 ^ e * 2 ^ (52 : ℕ) := hmul
        _ = 2 ^ e * (5 * 2 ^ 52) := by ring
    rw [roundDouble_eq_of_pos (by linarith), ← hedef]
    set k : ℕ := (52 - e).toNat with hk
    have hkz : ((k : ℕ) : ℤ) = 52 - e := Int.toNat_of_nonneg (by omega)
    set X : ℤ := 2 ^ k * m with hXdef
    have hx : (2 : ℚ) ^ (52 - e) * q = (X : ℚ) + (2 : ℚ) ^ (52 - e) * err := by
      rw [hqm, hXdef, ← hkz, zpow_natCast]
      push_cast
      ring
    have hupos : (0 : ℚ) < (2 : ℚ) ^ (52 - e) := zpow_pos (by norm_num) _
    have hfhalf : (2 : ℚ) ^ (52 - e) * err < 1 / 2 := by
      calc (2 : ℚ) ^ (52 - e) * err < 2 ^ (52 - e) * 2 ^ (e - 53) :=
            mul_lt_mul_of_pos_left herr_ulp hupos
        _ = 2 ^ (-1 : ℤ) := by
            rw [← zpow_add₀ (two_ne_zero : (2 : ℚ) ≠ 0)]
            congr 1
            omega
        _ = 1 / 2 := by norm_num
    have hf0 : (0 : ℚ) ≤ (2 : ℚ) ^ (52 - e) * err := by positivity
    have hfr : Int.fract ((2 : ℚ) ^ (52 - e) * q) = (2 : ℚ) ^ (52 - e) * err := by
      rw [hx, Int.fract_int_add, Int.fract_eq_self]
      exact ⟨hf0, by linarith⟩
    have hrte : roundTiesEven ((2 : ℚ) ^ (52 - e) * q) = X := by
      rw [roundTiesEven_of_fract_lt_half (by rw [hfr]; exact hfhalf)]
      rw [hx, Int.floor_int_add, add_right_eq_self, Int.floor_eq_zero_iff]
      exact ⟨hf0, by linarith⟩
    rw [hrte]
    have : (2 : ℚ) ^ (e - 52) * (X : ℚ) = (m : ℚ) := by
      rw [hXdef]
      push_cast
      rw [← zpow_natCast (2 : ℚ) k, hkz, ← mul_assoc,
        ← zpow_add₀ (two_ne_zero : (2 : ℚ) ≠ 0)]
      norm_num
    rw [this, Int.floor_intCast]
  · -- fractional case: the rounded product stays strictly between m and m+1
    have hr1 : 1 ≤ (r : ℚ) := by
      have : 1 ≤ r := by omega
      exact_mod_cast this
    set d := roundDouble q with hddef
    have hlow : (m : ℚ) < d := by
      have : q - 2 ^ (e - 53) ≤ d := by linarith [habs.1]
      nlinarith [hq]
    have hhigh : d < (m : ℚ) + 1 := by
      have : d ≤ q + 2 ^ (e - 53) := by linarith [habs.2]
      have hr4 : (r : ℚ) ≤ 4 := by
        have : r ≤ 4 := by omega
        exact_mod_cast this
      nlinarith [hq]
    rw [Int.floor_eq_iff]
    exact ⟨le_of_lt hlow, by linarith⟩

lemma round_three_quarters : round ((3 : ℚ) / 4) = 1 := by
  rw [round_eq, Int.floor_eq_iff]
  constructor <;> norm_num

set_option maxHeartbeats 1000000 in
/-- Concrete evaluation of the split index at `n = 3 * 2 ^ 49`: the double
product `1688849860263936 * 0.8` lands exactly halfway between two
representable values and the tie resolves upward (to the even significand),
so `int()` sees `1351079888211149.0`, one more than `⌊4n/5⌋`. -/
lemma pySplit_tie : pySplit 1688849860263936 = 1351079888211149 := by
  have hfn : floatOfNat 1688849860263936 = (1688849860263936 : ℚ) :=
    roundDouble_natCast 1688849860263936 (by norm_num) (by norm_num)
  have hq : (1688849860263936 : ℚ) * float08 =
      ((1351079888211148 : ℤ) : ℚ) + 7 / 8 := by
    rw [float08]
    norm_num
  have hfloor : ⌊((1351079888211148 : ℤ) : ℚ) + 7 / 8⌋ = 1351079888211148 := by
    rw [Int.floor_int_add, add_right_eq_self, Int.floor_eq_zero_iff]
    simp only [Set.mem_Ico]
    constructor <;> norm_num
  have hlog : Nat.log2 1351079888211148 = 50 := by
    have hne : (1351079888211148 : ℕ) ≠ 0 := by norm_num
    have hle : 50 ≤ Nat.log2 1351079888211148 := (Nat.le_log2 hne).mpr (by norm_num)
    have hlt : Nat.log2 1351079888211148 < 51 := (Nat.log2_lt hne).mpr (by norm_num)
    omega
  have hdexp : dexp (((1351079888211148 : ℤ) : ℚ) + 7 / 8) = 50 := by
    rw [dexp, if_neg (by push_cast; norm_num), hfloor]
    rw [show (1351079888211148 : ℤ).toNat = (1351079888211148 : ℕ) from rfl, hlog]
    norm_num
  have hrd : roundDouble (((1351079888211148 : ℤ) : ℚ) + 7 / 8) =
      ((1351079888211149 : ℤ) : ℚ) := by
    rw [roundDouble_eq_of_pos (by push_cast; norm_num), hdexp]
    have hx : (2 : ℚ) ^ ((52 : ℤ) - 50) * (((1351079888211148 : ℤ) : ℚ) + 7 / 8) =
        ((5404319552844595 : ℤ) : ℚ) + 1 / 2 := by
      push_cast
      norm_num
    rw [hx]
    have hfr : Int.fract (((5404319552844595 : ℤ) : ℚ) + 1 / 2) = 1 / 2 := by
      rw [Int.fract_int_add, Int.fract_eq_self]
      constructor <;> norm_num
    rw [roundTiesEven, if_pos hfr]
    have hx2 : (((5404319552844595 : ℤ) : ℚ) + 1 / 2) / 2 =
        ((2702159776422297 : ℤ) : ℚ) + 3 / 4 := by
      push_cast
      norm_num
    rw [hx2, round_int_add, round_three_quarters]
    push_cast
    norm_num
  rw [pySplit, pyMul08, hfn, hq, hrd, Int.floor_intCast]
  rfl

lemma pySplit_zero : pySplit 0 = 0 := by
  have h0 : roundDouble (0 : ℚ) = 0 := by
    rw [roundDouble, if_pos (le_refl (0 : ℚ))]
  rw [pySplit, pyMul08, floatOfNat]
  push_cast
  rw [h0, zero_mul, h0]
  norm_num

lemma pySplit_eq (n : ℕ) (h : n < 3 * 2 ^ 49) : pySplit n = 4 * n / 5 := by
  rcases Nat.eq_zero_or_pos n with rfl | hpos
  · rw [pySplit_zero]
  · rw [pySplit, pyMul08_floor n hpos h, Int.toNat_natCast]

/-! ### Claim theorems -/

/-- C4 (counterexample): with `n = 1688849860263936` records the train list
does not have `floor(0.8 * n) = 1351079888211148` elements: the binary64
product `n * 0.8` rounds (tie to even) to `1351079888211149.0`, so the train
list has one element more than the claim states. -/
theorem c4_counterexample :
    (trainValSplit (List.replicate 1688849860263936 dummyRecord)).1.length =
      1351079888211149 ∧
    4 * (List.replicate 1688849860263936 dummyRecord).length / 5 =
      1351079888211148 ∧
    (1351079888211149 : ℕ) ≠ 1351079888211148 := by
  refine ⟨?_, by rw [List.length_replicate], by norm_num⟩
  simp only [trainValSplit, List.length_take, List.length_replicate, pySplit_tie]
  norm_num

/-- C4 (amended): for every number `n` of assembled image records with
`n < 3 * 2 ^ 49 = 1688849860263936` (every physically realisable size; the
bound is sharp), the train list has exactly `floor(0.8 * n) = 4n/5` elements
and the val list the remaining `n - 4n/5`; at `n = 3 * 2 ^ 49` and beyond,
binary64 rounding of `n * 0.8` can make the train list one element longer. -/
theorem c4_split_sizes (l : List OutputRecord) (h : l.length < 3 * 2 ^ 49) :
    (trainValSplit l).1.length = 4 * l.length / 5 ∧
    (trainValSplit l).2.length = l.length - 4 * l.length / 5 := by
  have hs := pySplit_eq l.length h
  have hle : 4 * l.length / 5 ≤ l.length := by
    have := Nat.div_mul_le_self (4 * l.length) 5
    omega
  constructor
  · simp only [trainValSplit, List.length_take, hs]
    omega
  · simp only [trainValSplit, List.length_drop, hs]

/-- C4 (witness): a 5-element list splits into 4 train and 1 val records. -/
theorem c4_split_sizes_witness :
    (trainValSplit (List.replicate 5 dummyRecord)).1.length = 4 ∧
    (trainValSplit (List.replicate 5 dummyRecord)).2.length = 1 := by
  have h := c4_split_sizes (List.replicate 5 dummyRecord) (by simp)
  simpa using h

/-- C5: for every list of assembled records and any shuffle of it, train and
val partition the shuffled list: lengths sum to the original length; assuming
unique image paths the two path lists are disjoint; and a path occurs in the
original exactly when it occurs in train or in val. -/
theorem c5_split_partition (l shuffled : List OutputRecord)
    (hperm : shuffled.Perm l)
    (hnodup : (l.map OutputRecord.image_path).Nodup) :
    (trainValSplit shuffled).1.length + (trainValSplit shuffled).2.length
        = l.length ∧
    ((trainValSplit shuffled).1.map OutputRecord.image_path).Disjoint
      ((trainValSplit shuffled).2.map OutputRecord.image_path) ∧
    ∀ p, p ∈ l.map OutputRecord.image_path ↔
      (p ∈ (trainValSplit shuffled).1.map OutputRecord.image_path ∨
       p ∈ (trainValSplit shuffled).2.map OutputRecord.image_path) := by
  have hmap : (shuffled.map OutputRecord.image_path).Perm
      (l.map OutputRecord.image_path) := hperm.map _
  have hnodup' : (shuffled.map OutputRecord.image_path).Nodup :=
    hmap.nodup_iff.mpr hnodup
  refine ⟨?_, ?_, ?_⟩
  · simp only [trainValSplit, List.length_take, List.length_drop]
    have hlen := hperm.length_eq
    omega
  · simp only [trainValSplit, List.map_take, List.map_drop]
    exact List.disjoint_take_drop hnodup' (le_refl _)
  · intro p
    simp only [trainValSplit, List.map_take, List.map_drop]
    rw [← hmap.mem_iff, ← List.mem_append,
      List.take_append_drop]

/-- C5 (witness): the partition property instantiated on a concrete
two-record list with the identity shuffle. -/
theorem c5_split_partition_witness :
    ([recA, recB].map OutputRecord.image_path).Nodup ∧
    ((trainValSplit [recA, recB]).1.length + (trainValSplit [recA, recB]).2.length
        = [recA, recB].length ∧
    ((trainValSplit [recA, recB]).1.map OutputRecord.image_path).Disjoint
      ((trainValSplit [recA, recB]).2.map OutputRecord.image_path) ∧
    ∀ p, p ∈ [recA, recB].map OutputRecord.image_path ↔
      (p ∈ (trainValSplit [recA, recB]).1.map OutputRecord.image_path ∨
       p ∈ (trainValSplit [recA, recB]).2.map OutputRecord.image_path)) :=
  ⟨by simp [recA, recB],
   c5_split_partition [recA, recB] [recA, recB] (List.Perm.refl _)
     (by simp [recA, recB])⟩

/-- C6: an intrinsic record whose `principalPoint` starts with a pair
`[cx, cy]` and whose `focalLength` starts with `f` yields the matrix
`[[f,0,cx],[0,f,cy],[0,0,1]]` — zero skew and the same focal value at both
diagonal positions. -/
theorem c6_intrinsic_matrix (i : IntrinsicRecord) (rest : List IntrinsicRecord)
    (cx cy : ℚ) (pr : List ℚ) (pps : List (List ℚ)) (f : ℚ) (fr : List ℚ)
    (hpp : i.principalPoint = (cx :: cy :: pr) :: pps)
    (hfl : i.focalLength = f :: fr) :
    prepare_intrinsic (i :: rest) = .ok [[f, 0, cx], [0, f, cy], [0, 0, 1]] := by
  simp [prepare_intrinsic, hpp, hfl]

/-- C6 (witness): the spec's example record yields the spec's example
matrix. -/
theorem c6_intrinsic_matrix_witness :
    prepare_intrinsic [{ principalPoint := [[100, 50]], focalLength := [800] }] =
      .ok [[800, 0, 100], [0, 800, 50], [0, 0, 1]] :=
  c6_intrinsic_matrix _ [] 100 50 [] [] 800 [] rfl rfl

/-- C7: a pose record whose parsed transform has at least 9 rotation entries
and 3 center entries yields the homogeneous matrix with the rotation laid out
row-major in the upper-left 3x3 block, the center in the last column, and
bottom row `[0,0,0,1]`. -/
theorem c7_rototranslation_matrix (p : PoseRecord) (t : Transform)
    (r0 r1 r2 r3 r4 r5 r6 r7 r8 c0 c1 c2 : ℚ) (rr cr : List ℚ)
    (hp : p.pose = some t)
    (hrot : t.rotation = r0 :: r1 :: r2 :: r3 :: r4 :: r5 :: r6 :: r7 :: r8 :: rr)
    (hcen : t.center = c0 :: c1 :: c2 :: cr) :
    prepare_rototranslation p = .ok
      [[r0, r1, r2, c0], [r3, r4, r5, c1], [r6, r7, r8, c2], [0, 0, 0, 1]] := by
  obtain ⟨rot, cen⟩ := t
  dsimp only at hrot hcen
  subst hrot
  subst hcen
  rw [prepare_rototranslation, hp]
  dsimp only
  rw [dif_pos (by simp only [List.length_cons]; omega)]
  rfl

/-- C7 (witness): the spec's example — identity rotation, center (1,2,3) —
yields the spec's example transform. -/
theorem c7_rototranslation_matrix_witness :
    prepare_rototranslation
        { poseId := "0"
          pose := some { rotation := [1, 0, 0, 0, 1, 0, 0, 0, 1]
                         center := [1, 2, 3] } } =
      .ok [[1, 0, 0, 1], [0, 1, 0, 2], [0, 0, 1, 3], [0, 0, 0, 1]] :=
  c7_rototranslation_matrix _ _ 1 0 0 0 1 0 0 0 1 1 2 3 [] [] rfl rfl rfl

/-- C9: `prepare_rototranslation` raises whenever the embedded pose text does
not parse, or the rotation list has fewer than 9 elements, or the center list
fewer than 3. -/
theorem c9_rototranslation_error (p : PoseRecord)
    (h : p.pose = none ∨
      ∃ t, p.pose = some t ∧ (t.rotation.length < 9 ∨ t.center.length < 3)) :
    ∃ e, prepare_rototranslation p = .error e := by
  rcases h with hn | ⟨t, ht, hlen⟩
  · exact ⟨.valueError, by rw [prepare_rototranslation, hn]⟩
  · refine ⟨.indexError, ?_⟩
    rw [prepare_rototranslation, ht]
    dsimp only
    rw [dif_neg (by omega)]

/-- C9 (witness): a record whose embedded pose text failed to parse yields an
error. -/
theorem c9_rototranslation_error_witness :
    ∃ e, prepare_rototranslation { poseId := "0", pose := none } = .error e :=
  c9_rototranslation_error _ (Or.inl rfl)

/-! ### Loader and pipeline facts -/

lemma pdDataFrameFromRows_ok_cols {rows : List (List (Option ℚ))}
    {cols : List String} {df : Df}
    (h : pdDataFrameFromRows rows cols = .ok df) : df.cols = cols := by
  by_cases h0 : rows.isEmpty
  · rw [pdDataFrameFromRows, if_pos h0] at h
    injection h with h'
    rw [← h']
  · rw [pdDataFrameFromRows, if_neg h0] at h
    dsimp only at h
    by_cases hw : toObjectArrayWidth rows = cols.length
    · rw [if_pos hw] at h
      injection h with h'
      rw [← h']
    · rw [if_neg hw] at h
      exact Except.noConfusion h

lemma pdDataFrameFromRows_error_iff (rows : List (List (Option ℚ)))
    (cols : List String) :
    (∃ e, pdDataFrameFromRows rows cols = .error e) ↔
      rows ≠ [] ∧ toObjectArrayWidth rows ≠ cols.length := by
  by_cases h0 : rows.isEmpty
  · rw [pdDataFrameFromRows, if_pos h0]
    have : rows = [] := List.isEmpty_iff.mp h0
    apply iff_of_false
    · rintro ⟨e, he⟩
      exact Except.noConfusion he
    · intro hc
      exact hc.1 this
  · rw [pdDataFrameFromRows, if_neg h0]
    dsimp only
    have hne : rows ≠ [] := fun hnil => h0 (List.isEmpty_iff.mpr hnil)
    by_cases hw : toObjectArrayWidth rows = cols.length
    · rw [if_pos hw]
      apply iff_of_false
      · rintro ⟨e, he⟩
        exact Except.noConfusion he
      · intro hc
        exact hc.2 hw
    · rw [if_neg hw]
      exact iff_of_true ⟨.valueError, rfl⟩ ⟨hne, hw⟩

lemma extrapolate_json_eq (d : SfmInput) :
    extrapolate_json d =
      match pdDataFrameFromRows (d.«structure».map (fun s => s.X.map some))
          ["x", "y", "z"] with
      | .error e => .error e
      | .ok st =>
        if d.views.isEmpty then .error (.keyError "poseId")
        else .ok (astypeFloat st, mkViewTable d.views, d.poses, d.intrinsics) := by
  rw [extrapolate_json]
  cases pdDataFrameFromRows (d.«structure».map (fun s => s.X.map some))
    ["x", "y", "z"] <;> rfl

lemma extrapolate_json_ok_cols {d : SfmInput}
    {out : Df × List (String × ViewRecord) × List PoseRecord × List IntrinsicRecord}
    (h : extrapolate_json d = .ok out) : out.1.cols = ["x", "y", "z"] := by
  rw [extrapolate_json_eq] at h
  cases hst : pdDataFrameFromRows (d.«structure».map (fun s => s.X.map some))
      ["x", "y", "z"] with
  | error e =>
    rw [hst] at h
    exact Except.noConfusion h
  | ok st =>
    rw [hst] at h
    dsimp only at h
    by_cases hv : d.views.isEmpty
    · rw [if_pos hv] at h
      exact Except.noConfusion h
    · rw [if_neg hv] at h
      injection h with h'
      rw [← h']
      exact pdDataFrameFromRows_ok_cols hst

/-- C2: on every input on which `extrapolate_json` succeeds, the script dies
with `KeyError("X")` while selecting column `"X"` of the structure frame
(whose columns are x, y, z), and terminates having produced no output file
whatsoever. -/
theorem c2_column_lookup_error (input : SfmInput)
    (shuffle : List OutputRecord → List OutputRecord)
    (out : Df × List (String × ViewRecord) × List PoseRecord × List IntrinsicRecord)
    (h : extrapolate_json input = .ok out) :
    convert_sfm_to_parquet shuffle input = ([], some (.keyError "X")) := by
  obtain ⟨df, images, poses, intr⟩ := out
  have hcols : df.cols = ["x", "y", "z"] := extrapolate_json_ok_cols h
  rw [convert_sfm_to_parquet, h]
  dsimp only
  rw [dfColumn, hcols]
  rfl

/-- C2 (witness): on a document with one view and no structure points the
loader succeeds and the converter stops at `KeyError("X")` with no write
events. -/
theorem c2_column_lookup_error_witness :
    convert_sfm_to_parquet id viewsOnlyInput = ([], some (.keyError "X")) :=
  c2_column_lookup_error viewsOnlyInput id
    (⟨["x", "y", "z"], []⟩, mkViewTable [viewA], [], []) rfl

/-- C1: on a fully valid concrete document (one structure point, one view,
one matching pose, one intrinsic record) the run raises `KeyError("X")`
before any write: no point-cloud file (and no manifest) is ever produced,
contradicting the claimed structure round-trip. -/
theorem c1_no_output_files :
    convert_sfm_to_parquet id c1Input = ([], some (.keyError "X")) := rfl

/-- C3 (counterexample): two views sharing poseId "p": the view table keeps
both rows in order — the lookup returns two rows headed by the earlier
element, not the single overwriting row the claim describes. -/
theorem c3_counterexample :
    viewLoc (mkViewTable [viewA, viewB]) "p" = [viewA, viewB] ∧
    (viewLoc (mkViewTable [viewA, viewB]) "p").length ≠ 1 := by
  have h : viewLoc (mkViewTable [viewA, viewB]) "p" = [viewA, viewB] := rfl
  exact ⟨h, by rw [h]; simp⟩

/-- C3 (amended): the view table retains one row per element of `views` even
under duplicate poseIds, and looking an id up returns every view carrying it
in source order — a duplicated poseId therefore yields one row per duplicate
rather than a single later-overwrites-earlier row. -/
theorem c3_lookup_keeps_duplicates (views : List ViewRecord) (id : String) :
    viewLoc (mkViewTable views) id = views.filter (fun v => v.poseId == id) := by
  rw [viewLoc, mkViewTable, List.filter_map, List.map_map]
  have h1 : ((fun p : String × ViewRecord => p.1 == id) ∘
      fun v : ViewRecord => (v.poseId, v)) = fun v => v.poseId == id := rfl
  have h2 : ((fun p : String × ViewRecord => p.2) ∘
      fun v : ViewRecord => (v.poseId, v)) = fun v => v := rfl
  rw [h1, h2, List.map_id']

/-- C10 (counterexample): a document whose first `X` has length 2 (≠ 3), on
which `extrapolate_json` nevertheless succeeds — the short row is NaN-padded
because the object-array width (the maximum row length) is 3. -/
theorem c10_counterexample :
    (∃ v, extrapolate_json d10Input = .ok v) ∧
    ∃ s, s ∈ d10Input.«structure» ∧ s.X.length ≠ 3 := by
  refine ⟨⟨_, rfl⟩, ⟨{ X := [1, 2] }, ?_, by simp⟩⟩
  simp [d10Input]

/-- C10 (amended): `extrapolate_json` raises exactly when `structure` is
nonempty and the maximum `X` length across its elements differs from 3
(the pandas width check of line 31), or when `views` is empty (the
`set_index('poseId')` `KeyError` of line 32); an individual `X` shorter
than the width is NaN-padded, not rejected. -/
theorem c10_error_iff_width (d : SfmInput) :
    (∃ e, extrapolate_json d = .error e) ↔
      ((d.«structure» ≠ [] ∧
          toObjectArrayWidth (d.«structure».map (fun s => s.X.map some)) ≠ 3) ∨
        d.views = []) := by
  rw [extrapolate_json_eq]
  have hmap : (d.«structure».map (fun s => s.X.map some)) = [] ↔
      d.«structure» = [] := List.map_eq_nil_iff
  cases hst : pdDataFrameFromRows (d.«structure».map (fun s => s.X.map some))
      ["x", "y", "z"] with
  | error e =>
    have h1 := (pdDataFrameFromRows_error_iff
      (d.«structure».map (fun s => s.X.map some)) ["x", "y", "z"]).mp ⟨e, hst⟩
    refine iff_of_true ⟨e, rfl⟩ (Or.inl ⟨fun hn => h1.1 (hmap.mpr hn), ?_⟩)
    simpa using h1.2
  | ok st =>
    dsimp only
    by_cases hv : d.views.isEmpty
    · rw [if_pos hv]
      exact iff_of_true ⟨.keyError "poseId", rfl⟩
        (Or.inr (List.isEmpty_iff.mp hv))
    · rw [if_neg hv]
      have hno : ¬(d.«structure».map (fun s => s.X.map some) ≠ [] ∧
          toObjectArrayWidth (d.«structure».map (fun s => s.X.map some)) ≠
            (["x", "y", "z"] : List String).length) := by
        intro hc
        obtain ⟨e, he⟩ := (pdDataFrameFromRows_error_iff _ _).mpr hc
        rw [hst] at he
        exact Except.noConfusion he
      apply iff_of_false
      · rintro ⟨e', he'⟩
        exact Except.noConfusion he'
      · rintro (hc | hc)
        · exact hno ⟨fun hnil => hc.1 (hmap.mp hnil), by simpa using hc.2⟩
        · exact hv (List.isEmpty_iff.mpr hc)

/-- C8: when a pose whose identifier is absent from the view table is reached
(all earlier poses assemble fine), the assembly loop stops with the lookup
`KeyError` for that identifier — no recovery, no retry. -/
theorem c8_missing_pose_lookup (images : List (String × ViewRecord))
    (intrinsic : List IntrinsicRecord) (pref suff : List PoseRecord)
    (p : PoseRecord)
    (hpre : ∀ q ∈ pref, ∃ r, assembleOne images intrinsic q = .ok r)
    (habs : viewLoc images p.poseId = []) :
    assembleImages images intrinsic (pref ++ p :: suff) =
      .error (.keyError p.poseId) := by
  induction pref with
  | nil =>
    rw [List.nil_append]
    simp only [assembleImages, assembleOne, habs]
    rfl
  | cons q qs ih =>
    obtain ⟨r, hr⟩ := hpre q (List.mem_cons_self q qs)
    have ih' := ih (fun q' hq' => hpre q' (List.mem_cons_of_mem q hq'))
    rw [List.cons_append]
    simp only [assembleImages, hr, ih']
    rfl

/-- C8 (witness): a pose with identifier "q" and a view table that only knows
"p": assembly yields `KeyError("q")`. -/
theorem c8_missing_pose_lookup_witness :
    assembleImages (mkViewTable [viewA]) [] [{ poseId := "q", pose := none }] =
      .error (.keyError "q") :=
  c8_missing_pose_lookup (mkViewTable [viewA]) [] [] []
    { poseId := "q", pose := none } (by simp) rfl

end PrepareSfm
